import Mathlib

/-!
Verification of the schema/guidelines sanitizer and the completion
requester of `src/main.py` (Schema + Style Guide Extractor).

JSON-like values (the result of Python `json.loads`) are modelled by the
inductive type `Json`; Python dicts become ordered association lists with
string keys (as produced by JSON decoding), and `dict.get` is first-match
lookup.  Python strings are Lean `String`s, except in the requester where
they are `List Char` to mirror index/slice manipulation.
-/

/-- A JSON-like Python value: the possible results of `json.loads`. -/
inductive Json where
  | null : Json
  | bool : Bool → Json
  | num : Int → Json
  | str : String → Json
  | arr : List Json → Json
  | obj : List (String × Json) → Json

/-- Python `d.get(k)` on a dict: first (only) binding of `k`, if any. -/
def dictGet (kvs : List (String × Json)) (k : String) : Option Json :=
  match kvs with
  | [] => none
  | (k₀, v) :: rest => if k₀ = k then some v else dictGet rest k

/-- `candidate.get(k) if isinstance(candidate, dict) else None`. -/
def Json.get (j : Json) (k : String) : Option Json :=
  match j with
  | .obj kvs => dictGet kvs k
  | _ => none

/-- `isinstance(v, dict)`. -/
def Json.isObj : Json → Bool
  | .obj _ => true
  | _ => false

/-- The single-quote character, `chr(39)`. -/
def squote : Char := Char.ofNat 39

/-- The double-quote character, `chr(34)`. -/
def dquote : Char := Char.ofNat 34

/-- One character of a Python `repr` of a string, escaped as Python does
for the chosen quote character `q`. -/
def pyEscChar (q c : Char) : String :=
  if c = '\\' then "\\\\"
  else if c = q then "\\" ++ String.singleton q
  else if c = '\n' then "\\n"
  else if c = '\t' then "\\t"
  else if c = Char.ofNat 13 then "\\r"
  else String.singleton c

/-- Python `repr` of a string: single-quoted unless the string contains a
single quote but no double quote. -/
def pyReprStr (s : String) : String :=
  let q := if s.contains squote && ! s.contains dquote then dquote else squote
  String.singleton q ++ String.join (s.toList.map (pyEscChar q)) ++ String.singleton q

mutual

/-- Python `repr` of a JSON-like value. -/
def pyRepr : Json → String
  | .null => "None"
  | .bool true => "True"
  | .bool false => "False"
  | .num n => toString n
  | .str s => pyReprStr s
  | .arr xs => "[" ++ String.intercalate ", " (pyReprList xs) ++ "]"
  | .obj kvs => "\x7b" ++ String.intercalate ", " (pyReprObj kvs) ++ "\x7d"

/-- `repr` of the elements of a list. -/
def pyReprList : List Json → List String
  | [] => []
  | x :: xs => pyRepr x :: pyReprList xs

/-- `repr` of the `key: value` entries of a dict. -/
def pyReprObj : List (String × Json) → List String
  | [] => []
  | (k, v) :: xs => (pyReprStr k ++ ": " ++ pyRepr v) :: pyReprObj xs

end

/-- Python `str(v)` on a JSON-like value: the string itself for strings,
`repr`-style rendering otherwise. -/
def pyStr : Json → String
  | .str s => s
  | .null => pyRepr .null
  | .bool b => pyRepr (.bool b)
  | .num n => pyRepr (.num n)
  | .arr xs => pyRepr (.arr xs)
  | .obj kvs => pyRepr (.obj kvs)

/-- Python `str.isspace` characters removed by `str.strip()`. -/
def isPySpace (c : Char) : Bool :=
  c = ' ' || c = '\t' || c = '\n' || c = Char.ofNat 13 || c = Char.ofNat 12 || c = Char.ofNat 11

/-- Python `str.strip()` on a character list. -/
def pyStrip (l : List Char) : List Char :=
  ((l.dropWhile isPySpace).reverse.dropWhile isPySpace).reverse

/-- Python `str.strip()` on a `String`. -/
def pyStripStr (s : String) : String :=
  String.mk (pyStrip s.toList)

/-!  The sanitizer (`src/main.py`, lines 140–173 and 198–207). -/

/-- Lines 141–143: `title = candidate.get("title") if isinstance(candidate, dict)
else None`, defaulted to `"Extracted Schema"` unless it is a string that is
non-empty after `strip()`. -/
def sanitizeTitle (candidate : Json) : String :=
  match candidate.get "title" with
  | some (.str t) => if pyStripStr t = "" then "Extracted Schema" else t
  | _ => "Extracted Schema"

/-- Lines 145–149: `properties_in`, the `properties` entry when the candidate
is a dict and that entry is a dict, else empty. -/
def propsIn (candidate : Json) : List (String × Json) :=
  match candidate.get "properties" with
  | some (.obj props) => props
  | _ => []

/-- Lines 153–157: the description of one property schema — `schema.get("description")`
when `schema` is a dict, with `None` (absent or JSON null) replaced by `""`,
then `str(...)`. -/
def descOf (schema : Json) : String :=
  match schema with
  | .obj kvs =>
    match dictGet kvs "description" with
    | some .null => ""
    | none => ""
    | some d => pyStr d
  | _ => ""

/-- Line 158: the sanitized value of one property. -/
def sanitizeProp (schema : Json) : Json :=
  .obj [("type", .str "string"), ("description", .str (descOf schema))]

/-- One pass of the loop body on lines 152–158: the entry written to
`sanitized_properties` for the entry `kv` of `properties_in`. -/
def sanitizeEntry (kv : String × Json) : String × Json :=
  (kv.fst, sanitizeProp kv.snd)

/-- `isinstance(x, str)` filtering on line 164 (with `str(x)` the identity on
strings). -/
def asString : Json → Option String
  | .str s => some s
  | _ => none

/-- Lines 160–164: `required_in = [str(x) for x in req if isinstance(x, str)]`
when `req` is a list (keys of JSON-decoded values are strings, and `str` is
the identity on strings), else empty. -/
def requiredIn (candidate : Json) : List String :=
  match candidate.get "required" with
  | some (.arr xs) => xs.filterMap asString
  | _ => []

/-- `sanitize_to_string_schema` (lines 140–173).  Dict keys of JSON-decoded
values are strings, so the `str(key)` on line 158 is the identity. -/
def sanitize_to_string_schema (candidate : Json) : Json :=
  let title : String := sanitizeTitle candidate
  let sanitized_properties : List (String × Json) := (propsIn candidate).map sanitizeEntry
  let keys : List String := sanitized_properties.map Prod.fst
  let required_filtered : List String := (requiredIn candidate).filter (fun k => keys.contains k)
  .obj [("$schema", .str "https://json-schema.org/draft/2020-12/schema"),
        ("title", .str title),
        ("type", .str "object"),
        ("properties", .obj sanitized_properties),
        ("required", .arr (required_filtered.map .str))]

/-- Lines 203–206: `raw_result.get(k, "")` coerced with `str(...)` and `None`
replaced by `""`. -/
def strField (kvs : List (String × Json)) (k : String) : String :=
  match dictGet kvs k with
  | none => ""
  | some .null => ""
  | some v => pyStr v

/-- `sanitize_result_with_guidelines` (lines 198–207).  `raw_result.get("schema",
raw_result)` falls back to the whole input when the key is absent; a non-dict
candidate is replaced by the empty dict before sanitizing. -/
def sanitize_result_with_guidelines (raw_result : Json) : Json :=
  match raw_result with
  | .obj kvs =>
    let candidate := (dictGet kvs "schema").getD (.obj kvs)
    .obj [("schema", sanitize_to_string_schema (if candidate.isObj then candidate else .obj [])),
          ("guidelines", .str (strField kvs "guidelines")),
          ("style_guide", .str (strField kvs "style_guide"))]
  | _ =>
    .obj [("schema", sanitize_to_string_schema (.obj [])),
          ("guidelines", .str ""),
          ("style_guide", .str "")]

/-!  The completion requester (`src/main.py`, lines 93–134).  The network
calls themselves are inputs: each attempt either raises (an error string) or
returns the message content.  `json.loads` is the `loads` parameter, either
raising (an error string) or returning a decoded value. -/

/-- The backtick character, `chr(96)`. -/
def backtick : Char := Char.ofNat 96

/-- The triple-backtick code-fence delimiter on lines 127–128. -/
def fenceChars : List Char := [backtick, backtick, backtick]

/-- The `"json"` language hint on lines 130–131. -/
def jsonTag : List Char := ['j', 's', 'o', 'n']

/-- The text before and after the first occurrence of `sep` in `l`, when
`sep` occurs in `l` (leftmost match, as Python `str.split` finds it). -/
def splitFirst (sep : List Char) (l : List Char) : Option (List Char × List Char) :=
  match l with
  | [] => none
  | c :: rest =>
    if sep.isPrefixOf (c :: rest) then some ([], (c :: rest).drop sep.length)
    else
      match splitFirst sep rest with
      | some (b, a) => some (c :: b, a)
      | none => none

/-- Python `content.split(sep, 2)`: at most two splits at the leftmost
occurrences, the third part left unsplit. -/
def pySplitMax2 (sep l : List Char) : List (List Char) :=
  match splitFirst sep l with
  | none => [l]
  | some (p₀, r₀) =>
    match splitFirst sep r₀ with
    | none => [p₀, r₀]
    | some (p₁, r₁) => [p₀, p₁, r₁]

/-- Lines 125–131: `content.strip()`, then, when the content starts with a
triple-backtick fence, `content.split(...)[1]` and removal of a leading
`json` language hint followed by another `strip()`. -/
def strip_code_fences (raw : List Char) : List Char :=
  let content := pyStrip raw
  if fenceChars.isPrefixOf content then
    let c := (pySplitMax2 fenceChars content).getD 1 []
    if jsonTag.isPrefixOf c then pyStrip (c.drop jsonTag.length) else c
  else content

/-- Lines 104–114: the primary attempt — the JSON-mode completion call
followed by `json.loads` on its content. -/
def attemptPrimary (loads : List Char → Except (List Char) Json)
    (call : Except (List Char) (List Char)) : Except (List Char) Json :=
  match call with
  | .error e => .error e
  | .ok content => loads content

/-- Lines 117–132: the fallback attempt — the unconstrained completion call,
fence stripping, then `json.loads`. -/
def attemptFallback (loads : List Char → Except (List Char) Json)
    (call : Except (List Char) (List Char)) : Except (List Char) Json :=
  match call with
  | .error e => .error e
  | .ok content => loads (strip_code_fences content)

/-- The error prefix of line 134, `f"OpenAI parsing failed: {inner}"`. -/
def wrapErrorText : List Char := "OpenAI parsing failed: ".toList

/-- `extract_json_with_openai` (lines 93–134): the primary attempt, then on
any failure the fallback attempt, then on any failure a single wrapped
`RuntimeError` carrying the inner error. -/
def extract_json_with_openai (loads : List Char → Except (List Char) Json)
    (primaryCall fallbackCall : Except (List Char) (List Char)) :
    Except (List Char) Json :=
  match attemptPrimary loads primaryCall with
  | .ok j => .ok j
  | .error _ =>
    match attemptFallback loads fallbackCall with
    | .ok j => .ok j
    | .error inner => .error (wrapErrorText ++ inner)

/-!  Spec-side predicates, written from the specification's words, against
which the code-derived definitions above are compared. -/

/-- The spec's shape of one sanitized property: exactly
`(type: "string", description: some string)`. -/
def isStringPropSchema (v : Json) : Bool :=
  match v with
  | .obj [("type", .str t), ("description", .str _)] => t == "string"
  | _ => false

/-- The spec's canonical-schema invariant: `type` is exactly `"object"`,
`properties` maps string keys to string-typed property schemas, and
`required` lists only strings that are keys of `properties`. -/
def canonicalSchemaOK (s : Json) : Bool :=
  (match s.get "type" with
   | some (.str t) => t == "object"
   | _ => false)
  && (match s.get "properties" with
      | some (.obj props) => props.all (fun kv => isStringPropSchema kv.snd)
      | _ => false)
  && (match s.get "required", s.get "properties" with
      | some (.arr req), some (.obj props) =>
        req.all (fun x =>
          match x with
          | .str k => (props.map Prod.fst).contains k
          | _ => false)
      | _, _ => false)

/-- The spec's title rule: the candidate's `title` exactly when it is a
string that is non-empty after stripping, else `"Extracted Schema"`. -/
def titleSpec (c : Json) : String :=
  match c.get "title" with
  | some (.str t) => if pyStripStr t ≠ "" then t else "Extracted Schema"
  | _ => "Extracted Schema"

/-- The spec's required-entry rule: an entry of the raw `required` list is
kept exactly when it is a string and a key of the sanitized properties. -/
def keptRequiredEntry (props : List (String × Json)) (x : Json) : Bool :=
  match x with
  | .str s => (props.map Prod.fst).contains s
  | _ => false


/-!  Component lemmas: the fields of a sanitized schema object. -/

theorem sanitize_get_title (c : Json) :
    (sanitize_to_string_schema c).get "title" = some (.str (sanitizeTitle c)) := rfl

theorem sanitize_get_type (c : Json) :
    (sanitize_to_string_schema c).get "type" = some (.str "object") := rfl

theorem sanitize_get_properties (c : Json) :
    (sanitize_to_string_schema c).get "properties"
      = some (.obj ((propsIn c).map sanitizeEntry)) := rfl

theorem sanitize_get_required (c : Json) :
    (sanitize_to_string_schema c).get "required"
      = some (.arr (((requiredIn c).filter
          (fun k => (((propsIn c).map sanitizeEntry).map Prod.fst).contains k)).map .str)) := rfl

theorem isStringPropSchema_sanitizeProp (v : Json) :
    isStringPropSchema (sanitizeProp v) = true := rfl

theorem canonicalSchemaOK_sanitize (c : Json) :
    canonicalSchemaOK (sanitize_to_string_schema c) = true := by
  unfold canonicalSchemaOK
  rw [sanitize_get_type, sanitize_get_properties, sanitize_get_required]
  simp only [List.all_map, Bool.and_eq_true, List.all_eq_true, Function.comp]
  refine ⟨⟨rfl, fun kv _ => isStringPropSchema_sanitizeProp kv.snd⟩, fun k hk => ?_⟩
  obtain ⟨s, hs, rfl⟩ := List.mem_map.mp hk
  show (((propsIn c).map sanitizeEntry).map Prod.fst).contains s = true
  exact List.of_mem_filter hs

/-- C1: for every JSON-like input to the sanitizer (null, arrays, primitives
and the empty object included), `sanitize_result_with_guidelines` produces a
result whose schema has type exactly "object", whose properties map string
keys to objects of the exact shape (type "string", description: a string),
and whose required list is a subset of the property keys. -/
theorem sanitize_result_schema_always_canonical (j : Json) :
    ∃ s : Json, (sanitize_result_with_guidelines j).get "schema" = some s
      ∧ canonicalSchemaOK s = true := by
  cases j <;> exact ⟨_, rfl, canonicalSchemaOK_sanitize _⟩

/-- C5: the sanitized title equals the candidate's `title` field exactly when
that field is a string that is non-empty after stripping; otherwise (missing,
non-string, empty or whitespace-only) it is exactly "Extracted Schema". -/
theorem sanitized_title_follows_spec (c : Json) :
    (sanitize_to_string_schema c).get "title" = some (.str (titleSpec c))
    ∧ (sanitize_to_string_schema (.obj [("title", .str "   ")])).get "title"
        = some (.str "Extracted Schema")
    ∧ (sanitize_to_string_schema (.obj [])).get "title"
        = some (.str "Extracted Schema") := by
  refine ⟨?_, rfl, rfl⟩
  rw [sanitize_get_title]
  unfold sanitizeTitle titleSpec
  cases hg : c.get "title" with
  | none => rfl
  | some v =>
    cases v with
    | str t => by_cases h : pyStripStr t = "" <;> simp [h]
    | null => rfl
    | bool b => rfl
    | num n => rfl
    | arr xs => rfl
    | obj kvs => rfl

/-- C8: a mapping input without a "schema" key is itself used as the schema
candidate: the sanitized schema is `sanitize_to_string_schema` of the whole
input mapping. -/
theorem missing_schema_key_uses_whole_input (kvs : List (String × Json))
    (h : dictGet kvs "schema" = none) :
    (sanitize_result_with_guidelines (.obj kvs)).get "schema"
      = some (sanitize_to_string_schema (.obj kvs)) := by
  simp only [sanitize_result_with_guidelines, h]
  rfl

theorem missing_schema_key_uses_whole_input_witness :
    (sanitize_result_with_guidelines (.obj [("title", .str "T")])).get "schema"
      = some (sanitize_to_string_schema (.obj [("title", .str "T")])) :=
  missing_schema_key_uses_whole_input [("title", .str "T")] rfl

/-- C9: a mapping input whose "schema" key holds a non-mapping value does not
fall back to the whole input: the sanitized schema is the default empty
canonical schema (title "Extracted Schema", empty properties, empty
required). -/
theorem non_mapping_schema_value_gives_default (kvs : List (String × Json)) (v : Json)
    (h : dictGet kvs "schema" = some v) (hv : v.isObj = false) :
    (sanitize_result_with_guidelines (.obj kvs)).get "schema"
      = some (.obj [("$schema", .str "https://json-schema.org/draft/2020-12/schema"),
                    ("title", .str "Extracted Schema"),
                    ("type", .str "object"),
                    ("properties", .obj []),
                    ("required", .arr [])]) := by
  simp only [sanitize_result_with_guidelines, h, Option.getD_some, hv]
  rfl

theorem non_mapping_schema_value_gives_default_witness :
    (sanitize_result_with_guidelines
        (.obj [("schema", .str "not a mapping"), ("title", .str "Looks Like A Schema"),
               ("properties", .obj [("a", .obj [])])])).get "schema"
      = some (.obj [("$schema", .str "https://json-schema.org/draft/2020-12/schema"),
                    ("title", .str "Extracted Schema"),
                    ("type", .str "object"),
                    ("properties", .obj []),
                    ("required", .arr [])]) :=
  non_mapping_schema_value_gives_default
    [("schema", .str "not a mapping"), ("title", .str "Looks Like A Schema"),
     ("properties", .obj [("a", .obj [])])]
    (.str "not a mapping") rfl rfl

/-!  Idempotence of the sanitizer. -/

theorem strip_sanitizeTitle_ne (c : Json) : pyStripStr (sanitizeTitle c) ≠ "" := by
  unfold sanitizeTitle
  cases hg : c.get "title" with
  | none => decide
  | some v =>
    cases v with
    | str t =>
      by_cases h : pyStripStr t = ""
      · show pyStripStr (if pyStripStr t = "" then "Extracted Schema" else t) ≠ ""
        rw [if_pos h]; decide
      · show pyStripStr (if pyStripStr t = "" then "Extracted Schema" else t) ≠ ""
        rw [if_neg h]; exact h
    | null => decide
    | bool b => exact (by decide : pyStripStr "Extracted Schema" ≠ "")
    | num n => exact (by decide : pyStripStr "Extracted Schema" ≠ "")
    | arr xs => exact (by decide : pyStripStr "Extracted Schema" ≠ "")
    | obj kvs => exact (by decide : pyStripStr "Extracted Schema" ≠ "")

theorem sanitizeTitle_sanitize (c : Json) :
    sanitizeTitle (sanitize_to_string_schema c) = sanitizeTitle c := by
  show (if pyStripStr (sanitizeTitle c) = "" then "Extracted Schema" else sanitizeTitle c)
        = sanitizeTitle c
  rw [if_neg (strip_sanitizeTitle_ne c)]

theorem sanitizeProp_idem (v : Json) : sanitizeProp (sanitizeProp v) = sanitizeProp v := rfl

theorem sanitizeEntry_idem (kv : String × Json) :
    sanitizeEntry (sanitizeEntry kv) = sanitizeEntry kv := rfl

theorem map_sanitizeEntry_idem (l : List (String × Json)) :
    (l.map sanitizeEntry).map sanitizeEntry = l.map sanitizeEntry := by
  rw [List.map_map]
  exact List.map_congr_left fun kv _ => sanitizeEntry_idem kv

theorem map_fst_map_sanitizeEntry (l : List (String × Json)) :
    (l.map sanitizeEntry).map Prod.fst = l.map Prod.fst := by
  rw [List.map_map]
  exact List.map_congr_left fun kv _ => rfl

theorem filterMap_asString_map_str (l : List String) :
    (l.map Json.str).filterMap asString = l := by
  induction l with
  | nil => rfl
  | cons x xs ih => simp [List.filterMap_cons, asString, ih]

theorem propsIn_sanitize (c : Json) :
    propsIn (sanitize_to_string_schema c) = (propsIn c).map sanitizeEntry := rfl

theorem requiredIn_sanitize (c : Json) :
    requiredIn (sanitize_to_string_schema c)
      = (requiredIn c).filter
          (fun k => (((propsIn c).map sanitizeEntry).map Prod.fst).contains k) := by
  show (((requiredIn c).filter
          (fun k => (((propsIn c).map sanitizeEntry).map Prod.fst).contains k)).map
            Json.str).filterMap asString = _
  rw [filterMap_asString_map_str]

theorem filter_contains_self (req keys : List String) :
    ((req.filter fun k => keys.contains k).filter fun k => keys.contains k)
      = req.filter fun k => keys.contains k :=
  List.filter_eq_self.mpr fun _ ha => List.of_mem_filter ha

theorem sanitize_to_string_schema_eq (c : Json) :
    sanitize_to_string_schema c
      = .obj [("$schema", .str "https://json-schema.org/draft/2020-12/schema"),
              ("title", .str (sanitizeTitle c)),
              ("type", .str "object"),
              ("properties", .obj ((propsIn c).map sanitizeEntry)),
              ("required", .arr (((requiredIn c).filter
                  (fun k => (((propsIn c).map sanitizeEntry).map Prod.fst).contains k)).map
                    .str))] := rfl

theorem sanitize_to_string_schema_idem (c : Json) :
    sanitize_to_string_schema (sanitize_to_string_schema c) = sanitize_to_string_schema c := by
  rw [sanitize_to_string_schema_eq (sanitize_to_string_schema c),
      sanitizeTitle_sanitize, propsIn_sanitize, requiredIn_sanitize,
      map_sanitizeEntry_idem, filter_contains_self]
  rfl

theorem sanitize_result_shape (j : Json) :
    ∃ X g h, sanitize_result_with_guidelines j
      = .obj [("schema", sanitize_to_string_schema X),
              ("guidelines", .str g), ("style_guide", .str h)] := by
  cases j with
  | obj kvs => exact ⟨_, _, _, rfl⟩
  | null => exact ⟨.obj [], "", "", rfl⟩
  | bool b => exact ⟨.obj [], "", "", rfl⟩
  | num n => exact ⟨.obj [], "", "", rfl⟩
  | str s => exact ⟨.obj [], "", "", rfl⟩
  | arr xs => exact ⟨.obj [], "", "", rfl⟩

theorem sanitize_result_on_canonical (X : Json) (g h : String) :
    sanitize_result_with_guidelines
        (.obj [("schema", sanitize_to_string_schema X),
               ("guidelines", .str g), ("style_guide", .str h)])
      = .obj [("schema", sanitize_to_string_schema (sanitize_to_string_schema X)),
              ("guidelines", .str g), ("style_guide", .str h)] := rfl

/-- C2: the sanitizer is idempotent — applying
`sanitize_result_with_guidelines` to its own output returns that output
unchanged, for every input. -/
theorem sanitize_result_idempotent (j : Json) :
    sanitize_result_with_guidelines (sanitize_result_with_guidelines j)
      = sanitize_result_with_guidelines j := by
  obtain ⟨X, g, h, hshape⟩ := sanitize_result_shape j
  rw [hshape, sanitize_result_on_canonical, sanitize_to_string_schema_idem]

/-!  Required-list filtering and per-property coercion. -/

theorem map_str_filter_filterMap (xs : List Json) (p : String → Bool) :
    ((xs.filterMap asString).filter p).map Json.str
      = xs.filter (fun x => match x with | .str s => p s | _ => false) := by
  induction xs with
  | nil => rfl
  | cons x xs ih =>
    cases x with
    | str s =>
      by_cases h : p s = true
      · simp only [List.filterMap_cons, asString, List.filter_cons, h, if_true, List.map_cons, ih]
      · simp only [List.filterMap_cons, asString, List.filter_cons, h, if_false, ih]
        rw [if_neg (by simp [h]), if_neg (by simp [h])]
        exact ih
    | null => simpa only [List.filterMap_cons, asString, List.filter_cons] using ih
    | bool b => simpa only [List.filterMap_cons, asString, List.filter_cons] using ih
    | num n => simpa only [List.filterMap_cons, asString, List.filter_cons] using ih
    | arr ys => simpa only [List.filterMap_cons, asString, List.filter_cons] using ih
    | obj kvs => simpa only [List.filterMap_cons, asString, List.filter_cons] using ih

/-- C3: the sanitized required list keeps exactly the entries of the raw
required list that are strings and keys of the sanitized properties, in
order; a missing or non-list required field gives an empty list; and for
required = ["a","ghost"] with only property "a" the result is exactly ["a"]. -/
theorem required_list_filtering (c : Json) :
    (∀ xs props, c.get "required" = some (.arr xs) →
        (sanitize_to_string_schema c).get "properties" = some (.obj props) →
        (sanitize_to_string_schema c).get "required"
          = some (.arr (xs.filter (keptRequiredEntry props))))
    ∧ ((∀ xs, c.get "required" ≠ some (.arr xs)) →
        (sanitize_to_string_schema c).get "required" = some (.arr []))
    ∧ (sanitize_to_string_schema
          (.obj [("properties", .obj [("a", .obj [])]),
                 ("required", .arr [.str "a", .str "ghost"])])).get "required"
        = some (.arr [.str "a"]) := by
  refine ⟨?_, ?_, rfl⟩
  · intro xs props h1 h2
    rw [sanitize_get_properties] at h2
    simp only [Option.some.injEq, Json.obj.injEq] at h2
    subst h2
    have hr : requiredIn c = xs.filterMap asString := by
      unfold requiredIn; rw [h1]
    rw [sanitize_get_required, hr, map_str_filter_filterMap]
    rfl
  · intro hne
    have hr : requiredIn c = [] := by
      unfold requiredIn
      cases hg : c.get "required" with
      | none => rfl
      | some v =>
        cases v with
        | arr xs => exact absurd hg (hne xs)
        | null => rfl
        | bool b => rfl
        | num n => rfl
        | str s => rfl
        | obj kvs => rfl
    rw [sanitize_get_required, hr]
    rfl

theorem required_list_filtering_witness :
    (sanitize_to_string_schema
        (.obj [("properties", .obj [("b", .obj [])]),
               ("required", .arr [.str "b", .str "phantom", .num 3])])).get "required"
      = some (.arr [.str "b"]) :=
  (required_list_filtering
      (.obj [("properties", .obj [("b", .obj [])]),
             ("required", .arr [.str "b", .str "phantom", .num 3])])).1
    [.str "b", .str "phantom", .num 3] [("b", sanitizeProp (.obj []))] rfl rfl

theorem descOf_some (v d : Json) (h : v.get "description" = some d) (hd : d ≠ .null) :
    descOf v = pyStr d := by
  cases v with
  | obj kvs =>
    simp only [descOf]
    rw [show dictGet kvs "description" = some d from h]
    cases d with
    | null => exact absurd rfl hd
    | bool b => rfl
    | num n => rfl
    | str s => rfl
    | arr xs => rfl
    | obj o => rfl
  | null => exact Option.noConfusion h
  | bool b => exact Option.noConfusion h
  | num n => exact Option.noConfusion h
  | str s => exact Option.noConfusion h
  | arr xs => exact Option.noConfusion h

theorem descOf_none (v : Json) (h : v.get "description" = none) : descOf v = "" := by
  cases v with
  | obj kvs =>
    simp only [descOf]
    rw [show dictGet kvs "description" = none from h]
  | null => rfl
  | bool b => rfl
  | num n => rfl
  | str s => rfl
  | arr xs => rfl

theorem descOf_null (v : Json) (h : v.get "description" = some .null) : descOf v = "" := by
  cases v with
  | obj kvs =>
    simp only [descOf]
    rw [show dictGet kvs "description" = some .null from h]
  | null => exact Option.noConfusion h
  | bool b => exact Option.noConfusion h
  | num n => exact Option.noConfusion h
  | str s => exact Option.noConfusion h
  | arr xs => exact Option.noConfusion h

theorem mem_sanitized_props (c : Json) (props : List (String × Json)) (k : String) (v : Json)
    (hp : c.get "properties" = some (.obj props)) (hm : (k, v) ∈ props) :
    ∃ P, (sanitize_to_string_schema c).get "properties" = some (.obj P)
      ∧ (k, sanitizeProp v) ∈ P := by
  refine ⟨(propsIn c).map sanitizeEntry, sanitize_get_properties c, ?_⟩
  have hpi : propsIn c = props := by unfold propsIn; rw [hp]
  rw [hpi]
  exact List.mem_map_of_mem sanitizeEntry hm

/-- C4: every property entry, whatever its declared type, sanitizes to
(type "string", description: the original description stringified when one
is given, the empty string when it is absent or null); in particular a
property of declared type "integer" with description "count of items"
sanitizes to (type "string", description "count of items"). -/
theorem property_values_forced_to_string (c : Json) :
    (∀ props k v d, c.get "properties" = some (.obj props) → (k, v) ∈ props →
        v.get "description" = some d → d ≠ .null →
        ∃ P, (sanitize_to_string_schema c).get "properties" = some (.obj P)
          ∧ (k, Json.obj [("type", .str "string"), ("description", .str (pyStr d))]) ∈ P)
    ∧ (∀ props k v, c.get "properties" = some (.obj props) → (k, v) ∈ props →
        (v.get "description" = none ∨ v.get "description" = some .null) →
        ∃ P, (sanitize_to_string_schema c).get "properties" = some (.obj P)
          ∧ (k, Json.obj [("type", .str "string"), ("description", .str "")]) ∈ P)
    ∧ (sanitize_to_string_schema
          (.obj [("properties",
                  .obj [("count", .obj [("type", .str "integer"),
                                        ("description", .str "count of items")])])])).get
          "properties"
        = some (.obj [("count", .obj [("type", .str "string"),
                                      ("description", .str "count of items")])]) := by
  refine ⟨?_, ?_, rfl⟩
  · intro props k v d hp hm hdesc hdn
    have h := mem_sanitized_props c props k v hp hm
    rwa [show sanitizeProp v
        = Json.obj [("type", .str "string"), ("description", .str (pyStr d))] from by
      unfold sanitizeProp; rw [descOf_some v d hdesc hdn]] at h
  · intro props k v hp hm hcase
    have h := mem_sanitized_props c props k v hp hm
    have hd : descOf v = "" := by
      cases hcase with
      | inl h0 => exact descOf_none v h0
      | inr h0 => exact descOf_null v h0
    rwa [show sanitizeProp v
        = Json.obj [("type", .str "string"), ("description", .str "")] from by
      unfold sanitizeProp; rw [hd]] at h

theorem property_values_forced_to_string_witness :
    ∃ P, (sanitize_to_string_schema
        (.obj [("properties",
                .obj [("count", .obj [("type", .str "integer"),
                                      ("description", .str "count of items")])])])).get
        "properties"
      = some (.obj P)
      ∧ ("count", Json.obj [("type", .str "string"),
                            ("description", .str (pyStr (.str "count of items")))]) ∈ P :=
  (property_values_forced_to_string
      (.obj [("properties",
              .obj [("count", .obj [("type", .str "integer"),
                                    ("description", .str "count of items")])])])).1
    [("count", .obj [("type", .str "integer"), ("description", .str "count of items")])]
    "count" (.obj [("type", .str "integer"), ("description", .str "count of items")])
    (.str "count of items") rfl (List.mem_cons_self _ _) rfl
    (fun h => Json.noConfusion h)

/-- C10: a property entry whose value is not itself a mapping is not dropped:
it sanitizes to exactly (type "string", description "") under its key. -/
theorem non_mapping_property_value_kept (c : Json) (props : List (String × Json))
    (k : String) (v : Json) (hp : c.get "properties" = some (.obj props))
    (hm : (k, v) ∈ props) (hv : v.isObj = false) :
    ∃ P, (sanitize_to_string_schema c).get "properties" = some (.obj P)
      ∧ (k, Json.obj [("type", .str "string"), ("description", .str "")]) ∈ P := by
  have h := mem_sanitized_props c props k v hp hm
  have hd : descOf v = "" := by
    cases v with
    | obj kvs => simp [Json.isObj] at hv
    | null => rfl
    | bool b => rfl
    | num n => rfl
    | str s => rfl
    | arr xs => rfl
  rwa [show sanitizeProp v
      = Json.obj [("type", .str "string"), ("description", .str "")] from by
    unfold sanitizeProp; rw [hd]] at h

theorem non_mapping_property_value_kept_witness :
    ∃ P, (sanitize_to_string_schema
        (.obj [("properties", .obj [("age", .str "string")])])).get "properties"
      = some (.obj P)
      ∧ ("age", Json.obj [("type", .str "string"), ("description", .str "")]) ∈ P :=
  non_mapping_property_value_kept
    (.obj [("properties", .obj [("age", .str "string")])])
    [("age", .str "string")] "age" (.str "string") rfl (List.mem_cons_self _ _) rfl

/-!  Fence stripping and the requester's failure path. -/

theorem isPySpace_backtick : isPySpace backtick = false := rfl

theorem dropWhile_backtick_head (xs : List Char) :
    (backtick :: xs).dropWhile isPySpace = backtick :: xs := by
  simp [List.dropWhile_cons, isPySpace_backtick]

theorem pyStrip_backtick_wrapped (xs : List Char) :
    pyStrip (backtick :: (xs ++ [backtick])) = backtick :: (xs ++ [backtick]) := by
  unfold pyStrip
  rw [dropWhile_backtick_head]
  rw [show (backtick :: (xs ++ [backtick])).reverse = backtick :: (xs.reverse ++ [backtick])
      from by simp]
  rw [dropWhile_backtick_head]
  simp

theorem pyStrip_fence_wrapped (m : List Char) :
    pyStrip (fenceChars ++ (m ++ fenceChars)) = fenceChars ++ (m ++ fenceChars) := by
  have h := pyStrip_backtick_wrapped (backtick :: backtick :: (m ++ [backtick, backtick]))
  simpa [fenceChars] using h

theorem fence_isPrefixOf_append (l : List Char) :
    fenceChars.isPrefixOf (fenceChars ++ l) = true := by
  have h0 := List.prefix_append fenceChars l
  rwa [← List.isPrefixOf_iff_prefix] at h0

theorem jsonTag_isPrefixOf_append (l : List Char) :
    jsonTag.isPrefixOf (jsonTag ++ l) = true := by
  have h0 := List.prefix_append jsonTag l
  rwa [← List.isPrefixOf_iff_prefix] at h0

theorem splitFirst_fence_append (m : List Char) (r : List Char) (h : backtick ∉ m) :
    splitFirst fenceChars (m ++ fenceChars ++ r) = some (m, r) := by
  induction m with
  | nil =>
    show splitFirst fenceChars (fenceChars ++ r) = some ([], r)
    rw [show fenceChars ++ r = backtick :: ([backtick, backtick] ++ r) from rfl]
    simp only [splitFirst]
    rw [show fenceChars.isPrefixOf (backtick :: ([backtick, backtick] ++ r)) = true from
      fence_isPrefixOf_append r]
    rw [if_pos rfl]
    rfl
  | cons c cs ih =>
    have hc : c ≠ backtick := fun he => h (he ▸ List.mem_cons_self c cs)
    have hcs : backtick ∉ cs := fun hm => h (List.mem_cons_of_mem c hm)
    show splitFirst fenceChars (c :: (cs ++ fenceChars ++ r)) = some (c :: cs, r)
    have hpre : fenceChars.isPrefixOf (c :: (cs ++ fenceChars ++ r)) = false := by
      show (backtick == c && List.isPrefixOf [backtick, backtick] (cs ++ fenceChars ++ r))
            = false
      rw [beq_eq_false_iff_ne.mpr (Ne.symm hc), Bool.false_and]
    simp only [splitFirst, hpre, Bool.false_eq_true, if_false, ih hcs]

theorem pySplitMax2_fenced (m : List Char) (h : backtick ∉ m) :
    pySplitMax2 fenceChars (fenceChars ++ (m ++ fenceChars)) = [[], m, []] := by
  unfold pySplitMax2
  have h1 : splitFirst fenceChars (fenceChars ++ (m ++ fenceChars))
      = some ([], m ++ fenceChars) :=
    splitFirst_fence_append [] (m ++ fenceChars) (by simp)
  have h2 : splitFirst fenceChars (m ++ fenceChars) = some (m, []) := by
    have h0 := splitFirst_fence_append m [] h
    rwa [List.append_nil] at h0
  rw [h1]
  dsimp only
  rw [h2]

theorem pyStrip_cons_nl (l : List Char) : pyStrip ('\n' :: l) = pyStrip l := by
  unfold pyStrip
  simp [List.dropWhile_cons, show isPySpace '\n' = true from rfl]

theorem pyStrip_append_nl (l : List Char) : pyStrip (l ++ ['\n']) = pyStrip l := by
  unfold pyStrip
  rw [List.dropWhile_append]
  by_cases h : (l.dropWhile isPySpace).isEmpty
  · rw [if_pos h]
    rw [List.isEmpty_iff] at h
    rw [h]
    rfl
  · rw [if_neg h]
    simp [List.reverse_append, List.dropWhile_cons, show isPySpace '\n' = true from rfl]

theorem strip_code_fences_fenced (m : List Char) (h : backtick ∉ m) :
    strip_code_fences (fenceChars ++ (m ++ fenceChars))
      = if jsonTag.isPrefixOf m then pyStrip (m.drop jsonTag.length) else m := by
  simp only [strip_code_fences]
  rw [pyStrip_fence_wrapped]
  rw [fence_isPrefixOf_append, if_pos rfl, pySplitMax2_fenced m h]
  rfl

/-- C6: in the fallback path, a response made of a fence line holding only
the triple-backtick fence plus an optional "json" language hint, a middle
JSON body and a closing fence line is reduced to exactly the interior body
(the "json"-hint branch also strips surrounding whitespace), and the
requester hands exactly that body to the JSON parser. -/
theorem fallback_fence_stripping (body : List Char) (h : backtick ∉ body) :
    strip_code_fences (fenceChars ++ ((jsonTag ++ ('\n' :: (body ++ ['\n']))) ++ fenceChars))
      = pyStrip body
    ∧ strip_code_fences (fenceChars ++ (('\n' :: (body ++ ['\n'])) ++ fenceChars))
      = '\n' :: (body ++ ['\n'])
    ∧ ∀ (loads : List Char → Except (List Char) Json) (e : List Char) (j : Json),
        loads (pyStrip body) = .ok j →
        extract_json_with_openai loads (.error e)
            (.ok (fenceChars ++ ((jsonTag ++ ('\n' :: (body ++ ['\n']))) ++ fenceChars)))
          = .ok j := by
  have hm : backtick ∉ jsonTag ++ ('\n' :: (body ++ ['\n'])) := by
    intro hmem
    rcases List.mem_append.mp hmem with h1 | h1
    · simp [jsonTag, backtick] at h1
    · rcases List.mem_cons.mp h1 with h2 | h2
      · exact absurd (congrArg Char.toNat h2) (by decide)
      · rcases List.mem_append.mp h2 with h3 | h3
        · exact h h3
        · rcases List.mem_singleton.mp h3 with h4
          exact absurd (congrArg Char.toNat h4) (by decide)
  have hm' : backtick ∉ ('\n' :: (body ++ ['\n'])) := by
    intro hmem
    rcases List.mem_cons.mp hmem with h2 | h2
    · exact absurd (congrArg Char.toNat h2) (by decide)
    · rcases List.mem_append.mp h2 with h3 | h3
      · exact h h3
      · rcases List.mem_singleton.mp h3 with h4
        exact absurd (congrArg Char.toNat h4) (by decide)
  have hjson : strip_code_fences
      (fenceChars ++ ((jsonTag ++ ('\n' :: (body ++ ['\n']))) ++ fenceChars))
      = pyStrip body := by
    rw [strip_code_fences_fenced _ hm]
    rw [jsonTag_isPrefixOf_append, if_pos rfl]
    rw [List.drop_left]
    rw [show ('\n' :: (body ++ ['\n']) : List Char) = ('\n' :: body) ++ ['\n'] from rfl]
    rw [pyStrip_append_nl, pyStrip_cons_nl]
  have hbare : strip_code_fences (fenceChars ++ (('\n' :: (body ++ ['\n'])) ++ fenceChars))
      = '\n' :: (body ++ ['\n']) := by
    rw [strip_code_fences_fenced _ hm']
    rw [show jsonTag.isPrefixOf ('\n' :: (body ++ ['\n'])) = false from rfl]
    rw [if_neg (by simp)]
  refine ⟨hjson, hbare, fun loads e j hload => ?_⟩
  have hfall : attemptFallback loads
      (.ok (fenceChars ++ ((jsonTag ++ ('\n' :: (body ++ ['\n']))) ++ fenceChars)))
      = Except.ok j := by
    show loads (strip_code_fences
        (fenceChars ++ ((jsonTag ++ ('\n' :: (body ++ ['\n']))) ++ fenceChars))) = Except.ok j
    rw [hjson]
    exact hload
  have hprim : attemptPrimary loads (.error e) = Except.error e := rfl
  unfold extract_json_with_openai
  rw [hprim, hfall]

theorem fallback_fence_stripping_witness :
    strip_code_fences
        (fenceChars ++ ((jsonTag ++ ('\n' :: (("\x7b\"a\": 1\x7d".toList) ++ ['\n']))) ++ fenceChars))
      = pyStrip ("\x7b\"a\": 1\x7d".toList) :=
  (fallback_fence_stripping ("\x7b\"a\": 1\x7d".toList) (by decide)).1

/-- C7: when the primary attempt and the fallback attempt both fail to yield
parseable JSON, the requester returns the single wrapped error of line 134
(the "OpenAI parsing failed: " RuntimeError) carrying the inner failure; no
result is produced and no attempt beyond the one fallback is made. -/
theorem total_extraction_failure (loads : List Char → Except (List Char) Json)
    (primaryCall fallbackCall : Except (List Char) (List Char))
    (ep inner : List Char)
    (hp : attemptPrimary loads primaryCall = .error ep)
    (hf : attemptFallback loads fallbackCall = .error inner) :
    extract_json_with_openai loads primaryCall fallbackCall
      = .error (wrapErrorText ++ inner) := by
  unfold extract_json_with_openai
  rw [hp, hf]

theorem total_extraction_failure_witness :
    extract_json_with_openai (fun _ => .error "Expecting value".toList)
        (.error "boom".toList) (.ok "still not JSON".toList)
      = .error (wrapErrorText ++ "Expecting value".toList) :=
  total_extraction_failure (fun _ => .error "Expecting value".toList)
    (.error "boom".toList) (.ok "still not JSON".toList)
    "boom".toList "Expecting value".toList rfl rfl
